import Mathlib

/-
  Verification of the document-ingestion and question-answering backend
  (src/backend/main.py, src/backend/kg_db.py, src/backend/utils.py).

  Strings are modelled as lists of characters (`Str`).  The Python string
  operations used by the code (`str.split()`, `str.strip()`, `str.lower()`,
  `str.startswith`, substring membership, `os.path.splitext`) are embedded
  as executable Lean functions with the same semantics.
-/

set_option autoImplicit false

abbrev Str := List Char

/-- Whitespace test used by the Python `split` and `strip` embeddings. -/
def isWs (c : Char) : Bool := c.isWhitespace

/-- Python `str.lower()` (character-wise). -/
def toLowerStr (s : Str) : Str := s.map Char.toLower

/-- Split a character list at every whitespace character, keeping empty
segments (helper for the Python `str.split()` embedding). -/
def wsSplit : Str → List Str
  | [] => [[]]
  | c :: cs => if isWs c then [] :: wsSplit cs else (wsSplit cs).modifyHead (fun t => c :: t)

/-- Python `s.split()` with no separator argument: whitespace-delimited
tokens, with empty segments dropped. -/
def pySplit (s : Str) : List Str := (wsSplit s).filter (fun t => !t.isEmpty)

/-- Python `s.strip()`: remove leading and trailing whitespace. -/
def pyStrip (s : Str) : Str := ((s.dropWhile isWs).reverse.dropWhile isWs).reverse

/-- Python `str.rfind`: greatest index at which character `c` occurs in
`l`, or `-1` when absent. -/
def rfindIdx (l : Str) (c : Char) : Int :=
  match (l.enum.filter (fun p => p.2 == c)).getLast? with
  | some p => (p.1 : Int)
  | none => -1

/-- Python `os.path.splitext` for POSIX paths: splits off the extension at
the last dot, provided the dot lies after the last path separator and the
base name does not consist solely of leading dots. -/
def splitext (p : Str) : Str × Str :=
  let sepIdx := rfindIdx p '/'
  let dotIdx := rfindIdx p '.'
  if sepIdx < dotIdx then
    if p.enum.any (fun q => decide (sepIdx < (q.1 : Int)) && decide ((q.1 : Int) < dotIdx) && !(q.2 == '.')) then
      (p.take dotIdx.toNat, p.drop dotIdx.toNat)
    else (p, [])
  else (p, [])

/-- The list comprehension pattern
`[c.split()[0] for c in l if c.split()]` used at main.py:110 and
main.py:140: first whitespace-delimited token of each entry, entries
without a token skipped. -/
def first_word_list (l : List Str) : List Str :=
  (l.filter (fun c => !(pySplit c).isEmpty)).map (fun c => (pySplit c).headD [])

/-- Concept extraction during ingestion (main.py:110): the first word of
each of the first five chunks, blank chunks skipped. -/
def extract_concepts (chunks : List Str) : List Str :=
  first_word_list (chunks.take 5)

/- ===================== Concept graph store (kg_db.py) =====================
   The Neo4j store is modelled as a labelled graph: a list of
   (label, name) nodes and a list of (from-name, to-name, relation-type)
   edges, in insertion order.  `MERGE` is embedded as insert-if-absent;
   the `MATCH ... MERGE` of `create_edge` is a no-op when either endpoint
   name is missing.  Node identity is by (label, name); edge identity by
   (from, to, type), with endpoints referenced by name (every node the
   code ever creates carries the label Concept, and names are unique in
   all states the code can reach). -/

structure Graph where
  nodes : List (Str × Str)
  edges : List (Str × Str × Str)
deriving DecidableEq

def Graph.empty : Graph := ⟨[], []⟩

/-- kg_db.create_node: `MERGE (n:label .. name)` — add the node unless a
node with this label and name already exists. -/
def create_node (g : Graph) (label name : Str) : Graph :=
  if (label, name) ∈ g.nodes then g else { g with nodes := g.nodes ++ [(label, name)] }

/-- Whether some node of `g` carries the given name (any label), as the
`MATCH (a .. name)` clause of kg_db.create_edge tests. -/
def hasNodeNamed (g : Graph) (name : Str) : Bool := g.nodes.any (fun n => n.2 == name)

/-- kg_db.create_edge: match both endpoint names, then `MERGE` the typed
edge; a no-op when an endpoint is missing or the edge already exists. -/
def create_edge (g : Graph) (from_node to_node rel_type : Str) : Graph :=
  if hasNodeNamed g from_node && hasNodeNamed g to_node then
    if (from_node, to_node, rel_type) ∈ g.edges then g
    else { g with edges := g.edges ++ [(from_node, to_node, rel_type)] }
  else g

/-- kg_db.add_concepts: upsert a Concept node per concept, then a
RELATED_TO edge per consecutive pair. -/
def add_concepts (g : Graph) (concepts : List Str) : Graph :=
  let g1 := concepts.foldl (fun h c => create_node h ("Concept".toList) c) g
  (concepts.zip concepts.tail).foldl (fun h p => create_edge h p.1 p.2 ("RELATED_TO".toList)) g1

/-- The node-upsert loop of kg_db.add_concepts in isolation. -/
def addNodes (g : Graph) (cs : List Str) : Graph :=
  cs.foldl (fun h c => create_node h ("Concept".toList) c) g

/-- The edge-upsert loop of kg_db.add_concepts in isolation. -/
def addEdges (g : Graph) (ps : List (Str × Str)) : Graph :=
  ps.foldl (fun h p => create_edge h p.1 p.2 ("RELATED_TO".toList)) g

/- ================= Retrieval relevance filter (main.py:147-184) ========= -/

/-- The fixed general-knowledge trigger phrases of main.py:166. -/
def general_topics : List Str :=
  ["who is", "what is", "when did", "where is", "how old", "birthday", "born",
   "died", "founded", "ceo", "president", "elon musk", "tesla", "spacex"].map String.toList

/-- The filter body of main.py:150-156 applied to one retrieved document
content: strip, then require length above 50, no sentinel prefix, and more
than 5 words. -/
def meaningful_check (doc : Str) : Bool :=
  let content := pyStrip doc
  decide (50 < content.length) &&
    !(("Test".toList).isPrefixOf content) &&
    !(("grains".toList).isPrefixOf content) &&
    decide (5 < (pySplit content).length)

/-- Python substring membership `needle in hay`. -/
def containsStr (hay needle : Str) : Bool :=
  (List.range (hay.length + 1)).any (fun i => needle.isPrefixOf (hay.drop i))

/-- main.py:167: the lower-cased question contains some trigger phrase. -/
def is_general_question (question_lower : Str) : Bool :=
  general_topics.any (fun t => containsStr question_lower t)

/-- main.py:171: the lower-cased question contains a script-injection
marker. -/
def has_script_content (question_lower : Str) : Bool :=
  containsStr question_lower ("<script>".toList) ||
    containsStr question_lower ("javascript:".toList) ||
    containsStr question_lower ("alert(".toList)

def doc_source_message : Str :=
  "This answer is based on your uploaded documents.".toList

def gk_source_message : Str :=
  "This answer is from the general knowledge of the AI, not from your uploaded documents. No relevant content was found in your documents for this question.".toList

/-- The meaningful_docs list of main.py:148-157. -/
def meaningful_docs (relevant_docs : List Str) : List Str :=
  relevant_docs.filter meaningful_check

/-- main.py:159: some meaningful document was retrieved. -/
def has_meaningful_docs (relevant_docs : List Str) : Bool :=
  decide (0 < (meaningful_docs relevant_docs).length)

/-- main.py:173: the grounding decision of the filter. -/
def is_from_documents (question : Str) (relevant_docs : List Str) : Bool :=
  has_meaningful_docs relevant_docs
    && !(is_general_question (toLowerStr question))
    && !(has_script_content (toLowerStr question))

/-- The provenance classification of main.py:148-184: the pair
(answer_source, source_message) computed from the question and the list of
retrieved document contents. -/
def classify_source (question : Str) (relevant_docs : List Str) : Str × Str :=
  if is_from_documents question relevant_docs then ("document".toList, doc_source_message)
  else ("general_knowledge".toList, gk_source_message)

/- ======================= Application state (main.py) ====================
   The process-wide globals of main.py:23-26.  The three handles derived
   from an index build are tagged with the chunk contents the build was
   given, so that replacing a handle is observable in the model. -/

structure AppState where
  vectordb : Option (List Str)
  retriever : Option (List Str)
  qa_chain : Option (List Str)
  pdf_chunks_data : List Str
deriving DecidableEq

/-- The /status endpoint payload (main.py:75-84). -/
structure StatusReport where
  system_ready : Bool
  chunks_count : Nat
  has_vectordb : Bool
  has_retriever : Bool
  has_qa_chain : Bool
deriving DecidableEq

def get_status (st : AppState) : StatusReport :=
  ⟨st.qa_chain.isSome, st.pdf_chunks_data.length, st.vectordb.isSome,
   st.retriever.isSome, st.qa_chain.isSome⟩

/- ================== Ingestion endpoint (main.py:86-125) ================= -/

/-- Outcome of the external effects an upload performs, supplied as an
oracle: reading the upload and writing the temporary file (outside the
try block), chunking, the graph write, the Chroma index build, and the
chunks-data save. -/
structure UploadOracle where
  readOk : Bool
  chunkResult : Except Unit (List Str)
  graphOk : Bool
  indexOk : Bool
  saveOk : Bool

inductive UploadResult where
  | success (filename : Str) (chunkCount : Nat)
  | unsupportedType (ext : Str)
  | processingError
  | crash
deriving DecidableEq

/-- Which observable effects the upload performed. -/
structure UploadTrace where
  tmpCreated : Bool
  tmpDeleted : Bool
  chunkerInvoked : Bool
  graphWriteAttempted : Bool
  indexRebuilt : Bool
deriving DecidableEq

structure UploadOutcome where
  result : UploadResult
  state : AppState
  graph : Graph
  trace : UploadTrace
deriving DecidableEq

def supported_extensions : List Str :=
  [".pdf", ".txt", ".md", ".py", ".js", ".html", ".css", ".json", ".xml"].map String.toList

/-- The /upload_document handler (main.py:86-125).  Control flow follows
the source: the extension check happens before any work; the temporary
file is created and filled before the try block; inside the try block the
chunker runs, the global chunk list is overwritten, the concept graph is
updated, the index with its retriever and chain is rebuilt, and the chunk
list is saved; any exception in the try block deletes the temporary file
and yields the 500 payload. -/
def upload_document (st : AppState) (g : Graph) (filename : Str) (o : UploadOracle) : UploadOutcome :=
  let file_extension := toLowerStr (splitext filename).2
  if file_extension ∉ supported_extensions then
    ⟨.unsupportedType file_extension, st, g, ⟨false, false, false, false, false⟩⟩
  else if !o.readOk then
    -- `tmp_file.write(await file.read())` raised outside the try block:
    -- the temporary file already exists and nothing deletes it.
    ⟨.crash, st, g, ⟨true, false, false, false, false⟩⟩
  else
    match o.chunkResult with
    | .error _ => ⟨.processingError, st, g, ⟨true, true, true, false, false⟩⟩
    | .ok chunks =>
      let st1 := { st with pdf_chunks_data := chunks }
      if !o.graphOk then
        ⟨.processingError, st1, g, ⟨true, true, true, true, false⟩⟩
      else
        let g1 := add_concepts g (extract_concepts chunks)
        if !o.indexOk then
          ⟨.processingError, st1, g1, ⟨true, true, true, true, false⟩⟩
        else
          let st2 := { st1 with vectordb := some chunks, retriever := some chunks,
                                qa_chain := some chunks }
          if !o.saveOk then
            ⟨.processingError, st2, g1, ⟨true, true, true, true, true⟩⟩
          else
            ⟨.success filename chunks.length, st2, g1, ⟨true, true, true, true, true⟩⟩

/-- The /upload_pdf handler (main.py:128-130) simply delegates. -/
def upload_pdf (st : AppState) (g : Graph) (filename : Str) (o : UploadOracle) : UploadOutcome :=
  upload_document st g filename o

/- ================== Question endpoint (main.py:132-192) ================= -/

inductive AskResult where
  | notReady
  | crash
  | payload (answer : Str) (relevant_concepts : List Str) (answer_source : Str)
      (source_message : Str) (retrieved_docs_count : Nat)
deriving DecidableEq

def AskResult.isAnswerPayload : AskResult → Bool
  | .payload _ _ _ _ _ => true
  | _ => false

/-- The /ask_question handler (main.py:132-192).  `retrieved` is the
contents the retriever returns for the question and `answer` is the chain
completion, both external oracles.  A missing chain yields the 404
payload before anything else runs; a missing retriever with a present
chain would raise when `get_relevant_documents` is called. -/
def ask_question (st : AppState) (question : Str) (retrieved : List Str) (answer : Str) : AskResult :=
  if st.qa_chain.isNone then .notReady
  else if st.retriever.isNone then .crash
  else
    .payload answer (first_word_list retrieved) (classify_source question retrieved).1
      (classify_source question retrieved).2 retrieved.length

/- ====================== Document loading (utils.py) ===================== -/

/-- The external loader and splitter collaborators of utils.py, as
oracles: the PDF loader, the UTF-8 text loader (each may raise), and the
recursive character splitter. -/
structure Loaders where
  pdfLoad : Str → Except Unit (List Str)
  textLoad : Str → Except Unit (List Str)
  splitDocs : List Str → List Str

/-- utils.load_and_split_document: dispatch on the lower-cased extension,
load, split; unsupported extensions raise ValueError. -/
def load_and_split_document (L : Loaders) (file_path : Str) : Except Unit (List Str) :=
  let file_extension := toLowerStr (splitext file_path).2
  if file_extension = ".pdf".toList then
    (L.pdfLoad file_path).map L.splitDocs
  else if file_extension ∈ ([".txt", ".md", ".py", ".js", ".html", ".css", ".json", ".xml"].map String.toList) then
    (L.textLoad file_path).map L.splitDocs
  else
    .error ()

/-- utils.load_and_split_pdf (utils.py:22-23) simply delegates. -/
def load_and_split_pdf (L : Loaders) (file_path : Str) : Except Unit (List Str) :=
  load_and_split_document L file_path

/- ===================== Specification-side predicates ====================
   These restate the spec sentences of the claims in logical form, to be
   compared with the functions embedded from the source above. -/

/-- A retrieved item is meaningful per the spec: trimmed content longer
than 50 characters, more than 5 whitespace-delimited words, and no
sentinel prefix (the placeholder-fixture prefixes Test and grains). -/
def MeaningfulItem (doc : Str) : Prop :=
  50 < (pyStrip doc).length ∧ 5 < (pySplit (pyStrip doc)).length ∧
    ¬ (("Test".toList).isPrefixOf (pyStrip doc) = true) ∧
    ¬ (("grains".toList).isPrefixOf (pyStrip doc) = true)

/-- The script-injection markers checked by main.py:171. -/
def injection_markers : List Str :=
  ["<script>".toList, "javascript:".toList, "alert(".toList]

/-- The spec-side grounding condition: some retrieved item is meaningful,
the lower-cased question contains no general-knowledge trigger phrase,
and the question contains no injection marker (markers are matched on the
lower-cased question, per the defensive intent of the filter). -/
def GroundedSpec (question : Str) (docs : List Str) : Prop :=
  (∃ d ∈ docs, MeaningfulItem d) ∧
    (∀ t ∈ general_topics, ¬ (containsStr (toLowerStr question) t = true)) ∧
    (∀ m ∈ injection_markers, ¬ (containsStr (toLowerStr question) m = true))

/-- Well-formedness of the process state: a chain handle is only ever set
after the retriever handle (as both set-up paths of main.py do). -/
def StateInv (st : AppState) : Prop :=
  st.qa_chain.isSome = true → st.retriever.isSome = true

/- ========================= Concrete fixtures ========================== -/

def exampleChunks : List Str :=
  ["Apple pie".toList, "".toList, "Banana split".toList, "   ".toList, "Cherry cake".toList]

def blankState : AppState := ⟨none, none, none, []⟩

def readyState : AppState := ⟨some [], some [], some [], []⟩

def priorState : AppState := ⟨some ["old doc".toList], some ["old doc".toList], some ["old doc".toList], ["old doc".toList]⟩

def txtName : Str := "doc.txt".toList

def exeName : Str := "malware.exe".toList

def newChunks : List Str := ["new first chunk".toList, "new second chunk".toList]

/-- Oracle run in which every step succeeds. -/
def oracleAllOk : UploadOracle := ⟨true, .ok newChunks, true, true, true⟩

/-- Oracle run in which only the graph write raises. -/
def oracleGraphFail : UploadOracle := ⟨true, .ok newChunks, false, true, true⟩

/-- Oracle run in which only the index rebuild raises. -/
def oracleIndexFail : UploadOracle := ⟨true, .ok newChunks, true, false, true⟩

/-- Oracle run in which reading the upload (or writing the temporary
file) raises, before the try block is entered. -/
def oracleReadFail : UploadOracle := ⟨false, .ok newChunks, true, true, true⟩

/- ===================== Lemmas about the string model ==================== -/

theorem wsSplit_ne_nil (s : Str) : wsSplit s ≠ [] := by
  induction s with
  | nil => simp [wsSplit]
  | cons c cs ih =>
    simp only [wsSplit]
    split
    · simp
    · cases h : wsSplit cs with
      | nil => exact absurd h ih
      | cons t rest => simp [List.modifyHead]

theorem pySplit_cons_ws {c : Char} (cs : Str) (h : isWs c = true) :
    pySplit (c :: cs) = pySplit cs := by
  simp [pySplit, wsSplit, h]

theorem pySplit_cons_not_ws {c : Char} (cs : Str) (h : isWs c = false) :
    pySplit (c :: cs) = (c :: (wsSplit cs).headD []) :: ((wsSplit cs).tail.filter (fun t => !t.isEmpty)) := by
  cases hw : wsSplit cs with
  | nil => exact absurd hw (wsSplit_ne_nil cs)
  | cons t rest => simp [pySplit, wsSplit, h, hw, List.modifyHead]

theorem pySplit_eq_nil_iff (s : Str) : pySplit s = [] ↔ s.all isWs = true := by
  induction s with
  | nil => simp [pySplit, wsSplit]
  | cons c cs ih =>
    cases h : isWs c with
    | true => simp [pySplit_cons_ws cs h, ih, h]
    | false => simp [pySplit_cons_not_ws cs h, h]

theorem wsSplit_all_ws {w : Str} (h : w.all isWs = true) :
    wsSplit w = List.replicate (w.length + 1) [] := by
  induction w with
  | nil => simp [wsSplit]
  | cons c cs ih =>
    simp only [List.all_cons, Bool.and_eq_true] at h
    simp [wsSplit, h.1, ih h.2, List.replicate]

theorem modifyHead_append_of_ne_nil {α : Type} (f : α → α) (l l' : List α) (h : l ≠ []) :
    (l ++ l').modifyHead f = l.modifyHead f ++ l' := by
  cases l with
  | nil => exact absurd rfl h
  | cons a t => simp [List.modifyHead]

theorem wsSplit_append_ws (l : Str) {w : Str} (h : w.all isWs = true) :
    wsSplit (l ++ w) = wsSplit l ++ List.replicate w.length [] := by
  induction l with
  | nil =>
    rw [List.nil_append, wsSplit_all_ws h]
    simp [wsSplit, List.replicate_succ]
  | cons c cs ih =>
    cases hc : isWs c with
    | true => simp [wsSplit, hc, ih]
    | false =>
      rw [List.cons_append]
      simp only [wsSplit, hc, Bool.false_eq_true, if_false]
      rw [ih, modifyHead_append_of_ne_nil _ _ _ (wsSplit_ne_nil cs)]

theorem filter_replicate_empty (n : Nat) :
    (List.replicate n ([] : Str)).filter (fun t => !t.isEmpty) = [] := by
  induction n with
  | zero => simp
  | succ k ih => simp [List.replicate_succ, ih]

theorem pySplit_append_ws (l : Str) {w : Str} (h : w.all isWs = true) :
    pySplit (l ++ w) = pySplit l := by
  simp [pySplit, wsSplit_append_ws l h, List.filter_append, filter_replicate_empty]

theorem pySplit_dropWhile_ws (s : Str) : pySplit (s.dropWhile isWs) = pySplit s := by
  induction s with
  | nil => rfl
  | cons c cs ih =>
    cases hc : isWs c with
    | true => rw [List.dropWhile_cons_of_pos hc, ih, pySplit_cons_ws cs hc]
    | false => rw [List.dropWhile_cons_of_neg (by simp [hc])]

theorem pySplit_pyStrip (s : Str) : pySplit (pyStrip s) = pySplit s := by
  have hdecomp : s.dropWhile isWs =
      pyStrip s ++ ((s.dropWhile isWs).reverse.takeWhile isWs).reverse := by
    have h1 : (s.dropWhile isWs).reverse =
        (s.dropWhile isWs).reverse.takeWhile isWs ++ (s.dropWhile isWs).reverse.dropWhile isWs :=
      (List.takeWhile_append_dropWhile (p := isWs) (l := (s.dropWhile isWs).reverse)).symm
    calc s.dropWhile isWs = (s.dropWhile isWs).reverse.reverse := by rw [List.reverse_reverse]
      _ = ((s.dropWhile isWs).reverse.takeWhile isWs ++ (s.dropWhile isWs).reverse.dropWhile isWs).reverse := by
          rw [← h1]
      _ = pyStrip s ++ ((s.dropWhile isWs).reverse.takeWhile isWs).reverse := by
          rw [List.reverse_append]; rfl
  have hws : (((s.dropWhile isWs).reverse.takeWhile isWs).reverse).all isWs = true := by
    rw [List.all_eq_true]
    intro x hx
    rw [List.mem_reverse] at hx
    exact List.mem_takeWhile_imp hx
  calc pySplit (pyStrip s)
      = pySplit (pyStrip s ++ ((s.dropWhile isWs).reverse.takeWhile isWs).reverse) :=
        (pySplit_append_ws _ hws).symm
    _ = pySplit (s.dropWhile isWs) := by rw [← hdecomp]
    _ = pySplit s := pySplit_dropWhile_ws s

theorem first_word_list_eq_filterMap (l : List Str) :
    first_word_list l = l.filterMap (fun c => (pySplit c).head?) := by
  induction l with
  | nil => rfl
  | cons d ds ih =>
    cases h : pySplit d with
    | nil => simp [first_word_list, List.filterMap_cons, h] at ih ⊢; simpa [first_word_list] using ih
    | cons x xs =>
      simp [first_word_list, List.filterMap_cons, h] at ih ⊢
      simpa [first_word_list] using ih

/- ===================== Lemmas about the graph model ===================== -/

theorem add_concepts_eq (g : Graph) (cs : List Str) :
    add_concepts g cs = addEdges (addNodes g cs) (cs.zip cs.tail) := rfl

theorem nodes_create_edge (g : Graph) (a b r : Str) : (create_edge g a b r).nodes = g.nodes := by
  unfold create_edge
  split <;> [skip; rfl]
  split <;> rfl

theorem edges_create_node (g : Graph) (l n : Str) : (create_node g l n).edges = g.edges := by
  unfold create_node
  split <;> rfl

theorem nodes_addEdges (g : Graph) (ps : List (Str × Str)) : (addEdges g ps).nodes = g.nodes := by
  induction ps generalizing g with
  | nil => rfl
  | cons p ps ih => rw [addEdges, List.foldl_cons, ← addEdges, ih, nodes_create_edge]

theorem edges_addNodes (g : Graph) (cs : List Str) : (addNodes g cs).edges = g.edges := by
  induction cs generalizing g with
  | nil => rfl
  | cons c cs ih => rw [addNodes, List.foldl_cons, ← addNodes, ih, edges_create_node]

theorem mem_nodes_create_node {g : Graph} {x : Str × Str} (l n : Str) (h : x ∈ g.nodes) :
    x ∈ (create_node g l n).nodes := by
  unfold create_node
  split
  · exact h
  · simp [List.mem_append, h]

theorem self_mem_create_node (g : Graph) (l n : Str) : (l, n) ∈ (create_node g l n).nodes := by
  unfold create_node
  split
  · assumption
  · simp

theorem mem_nodes_addNodes {g : Graph} {x : Str × Str} (cs : List Str) (h : x ∈ g.nodes) :
    x ∈ (addNodes g cs).nodes := by
  induction cs generalizing g with
  | nil => exact h
  | cons c cs ih => exact ih (mem_nodes_create_node _ _ h)

theorem concept_mem_addNodes {cs : List Str} {c : Str} (g : Graph) (hc : c ∈ cs) :
    ("Concept".toList, c) ∈ (addNodes g cs).nodes := by
  induction cs generalizing g with
  | nil => cases hc
  | cons d ds ih =>
    rcases List.mem_cons.mp hc with h | h
    · subst h
      exact mem_nodes_addNodes ds (self_mem_create_node g _ c)
    · exact ih _ h

theorem create_node_eq_of_mem {g : Graph} {l n : Str} (h : (l, n) ∈ g.nodes) :
    create_node g l n = g := by
  unfold create_node
  exact if_pos h

theorem addNodes_eq_of_mem {g : Graph} {cs : List Str}
    (h : ∀ c ∈ cs, ("Concept".toList, c) ∈ g.nodes) : addNodes g cs = g := by
  induction cs with
  | nil => rfl
  | cons c cs ih =>
    rw [addNodes, List.foldl_cons, create_node_eq_of_mem (h c (by simp)), ← addNodes]
    exact ih fun d hd => h d (by simp [hd])

theorem mem_edges_create_edge {g : Graph} {e : Str × Str × Str} (a b r : Str) (h : e ∈ g.edges) :
    e ∈ (create_edge g a b r).edges := by
  unfold create_edge
  split <;> [skip; exact h]
  split
  · exact h
  · simp [List.mem_append, h]

theorem mem_edges_addEdges {g : Graph} {e : Str × Str × Str} (ps : List (Str × Str))
    (h : e ∈ g.edges) : e ∈ (addEdges g ps).edges := by
  induction ps generalizing g with
  | nil => exact h
  | cons p ps ih => exact ih (mem_edges_create_edge _ _ _ h)

theorem self_mem_create_edge {g : Graph} {a b : Str} (r : Str)
    (ha : hasNodeNamed g a = true) (hb : hasNodeNamed g b = true) :
    (a, b, r) ∈ (create_edge g a b r).edges := by
  unfold create_edge
  rw [ha, hb]
  simp only [Bool.and_self, if_true]
  split
  · assumption
  · simp

theorem hasNodeNamed_create_edge (g : Graph) (a b r n : Str) :
    hasNodeNamed (create_edge g a b r) n = hasNodeNamed g n := by
  unfold hasNodeNamed
  rw [nodes_create_edge]

theorem edge_mem_addEdges {g : Graph} {ps : List (Str × Str)} {p : Str × Str}
    (hp : p ∈ ps) (ha : hasNodeNamed g p.1 = true) (hb : hasNodeNamed g p.2 = true) :
    (p.1, p.2, "RELATED_TO".toList) ∈ (addEdges g ps).edges := by
  induction ps generalizing g with
  | nil => cases hp
  | cons q qs ih =>
    rw [addEdges, List.foldl_cons, ← addEdges]
    rcases List.mem_cons.mp hp with h | h
    · subst h
      exact mem_edges_addEdges qs (self_mem_create_edge _ ha hb)
    · exact ih h (by rw [hasNodeNamed_create_edge]; exact ha)
        (by rw [hasNodeNamed_create_edge]; exact hb)

theorem create_edge_eq_of_mem {g : Graph} {a b r : Str} (h : (a, b, r) ∈ g.edges) :
    create_edge g a b r = g := by
  unfold create_edge
  split <;> rfl

theorem addEdges_eq_of_mem {g : Graph} {ps : List (Str × Str)}
    (h : ∀ p ∈ ps, (p.1, p.2, "RELATED_TO".toList) ∈ g.edges) : addEdges g ps = g := by
  induction ps with
  | nil => rfl
  | cons p ps ih =>
    rw [addEdges, List.foldl_cons, create_edge_eq_of_mem (h p (by simp)), ← addEdges]
    exact ih fun q hq => h q (by simp [hq])

theorem hasNodeNamed_of_mem {g : Graph} {l n : Str} (h : (l, n) ∈ g.nodes) :
    hasNodeNamed g n = true := by
  unfold hasNodeNamed
  rw [List.any_eq_true]
  exact ⟨(l, n), h, by simp⟩

theorem add_concepts_idem (g : Graph) (cs : List Str) :
    add_concepts (add_concepts g cs) cs = add_concepts g cs := by
  have hnodes : ∀ c ∈ cs, ("Concept".toList, c) ∈ (add_concepts g cs).nodes := by
    intro c hc
    rw [add_concepts_eq, nodes_addEdges]
    exact concept_mem_addNodes g hc
  have hedges : ∀ p ∈ cs.zip cs.tail, (p.1, p.2, "RELATED_TO".toList) ∈ (add_concepts g cs).edges := by
    intro p hp
    have hmem := List.of_mem_zip hp
    have ha : hasNodeNamed (addNodes g cs) p.1 = true :=
      hasNodeNamed_of_mem (concept_mem_addNodes g hmem.1)
    have hb : hasNodeNamed (addNodes g cs) p.2 = true :=
      hasNodeNamed_of_mem (concept_mem_addNodes g (List.mem_of_mem_tail hmem.2))
    rw [add_concepts_eq]
    exact edge_mem_addEdges hp ha hb
  rw [add_concepts_eq (add_concepts g cs), addNodes_eq_of_mem hnodes, addEdges_eq_of_mem hedges]

theorem mem_nodes_create_node_iff (g : Graph) (l n : Str) (x : Str × Str) :
    x ∈ (create_node g l n).nodes ↔ x ∈ g.nodes ∨ x = (l, n) := by
  constructor
  · intro hx
    unfold create_node at hx
    split at hx
    · exact Or.inl hx
    · simpa using hx
  · rintro (hx | hx)
    · exact mem_nodes_create_node l n hx
    · subst hx; exact self_mem_create_node g l n

theorem mem_nodes_addNodes_iff (g : Graph) (cs : List Str) (x : Str × Str) :
    x ∈ (addNodes g cs).nodes ↔ x ∈ g.nodes ∨ (x.1 = "Concept".toList ∧ x.2 ∈ cs) := by
  induction cs generalizing g with
  | nil => simp [addNodes]
  | cons c cs ih =>
    rw [addNodes, List.foldl_cons, ← addNodes, ih, mem_nodes_create_node_iff]
    constructor
    · rintro ((hx | hx) | hx)
      · exact Or.inl hx
      · exact Or.inr ⟨by rw [hx], by rw [hx]; simp⟩
      · exact Or.inr ⟨hx.1, by simp [hx.2]⟩
    · rintro (hx | ⟨hx1, hx2⟩)
      · exact Or.inl (Or.inl hx)
      · rcases List.mem_cons.mp hx2 with h | h
        · refine Or.inl (Or.inr ?_)
          cases x
          simp_all
        · exact Or.inr ⟨hx1, h⟩

theorem nodup_nodes_create_node (g : Graph) (l n : Str) (h : g.nodes.Nodup) :
    (create_node g l n).nodes.Nodup := by
  unfold create_node
  split
  · exact h
  · rw [List.nodup_append_comm, List.singleton_append, List.nodup_cons]
    exact ⟨by assumption, h⟩

theorem nodup_nodes_addNodes (g : Graph) (cs : List Str) (h : g.nodes.Nodup) :
    (addNodes g cs).nodes.Nodup := by
  induction cs generalizing g with
  | nil => exact h
  | cons c cs ih => exact ih _ (nodup_nodes_create_node _ _ _ h)

theorem nodup_edges_create_edge (g : Graph) (a b r : Str) (h : g.edges.Nodup) :
    (create_edge g a b r).edges.Nodup := by
  unfold create_edge
  split <;> [skip; exact h]
  split
  · exact h
  · rw [List.nodup_append_comm, List.singleton_append, List.nodup_cons]
    exact ⟨by assumption, h⟩

theorem nodup_edges_addEdges (g : Graph) (ps : List (Str × Str)) (h : g.edges.Nodup) :
    (addEdges g ps).edges.Nodup := by
  induction ps generalizing g with
  | nil => exact h
  | cons p ps ih => exact ih _ (nodup_edges_create_edge _ _ _ _ h)

theorem mem_edges_create_edge_imp {g : Graph} {a b r : Str} {e : Str × Str × Str}
    (h : e ∈ (create_edge g a b r).edges) : e ∈ g.edges ∨ e = (a, b, r) := by
  unfold create_edge at h
  split at h
  · split at h
    · exact Or.inl h
    · simpa using h
  · exact Or.inl h

theorem mem_edges_addEdges_imp {g : Graph} {ps : List (Str × Str)} {e : Str × Str × Str}
    (h : e ∈ (addEdges g ps).edges) :
    e ∈ g.edges ∨ ∃ p ∈ ps, e = (p.1, p.2, "RELATED_TO".toList) := by
  induction ps generalizing g with
  | nil => exact Or.inl h
  | cons q qs ih =>
    rw [addEdges, List.foldl_cons, ← addEdges] at h
    rcases ih h with h1 | h1
    · rcases mem_edges_create_edge_imp h1 with h2 | h2
      · exact Or.inl h2
      · exact Or.inr ⟨q, by simp, h2⟩
    · obtain ⟨p, hp, he⟩ := h1
      exact Or.inr ⟨p, by simp [hp], he⟩

/- ================= Lemmas about the relevance filter ==================== -/

theorem meaningful_check_iff (d : Str) : meaningful_check d = true ↔ MeaningfulItem d := by
  unfold meaningful_check MeaningfulItem
  simp only [Bool.and_eq_true, decide_eq_true_iff, Bool.not_eq_true', Bool.not_eq_true]
  tauto

theorem exists_meaningful_iff (docs : List Str) :
    0 < (docs.filter meaningful_check).length ↔ ∃ d ∈ docs, MeaningfulItem d := by
  rw [List.length_pos]
  constructor
  · intro h
    obtain ⟨d, hd⟩ := List.exists_mem_of_ne_nil _ h
    rw [List.mem_filter] at hd
    exact ⟨d, hd.1, (meaningful_check_iff d).mp hd.2⟩
  · rintro ⟨d, hd, hm⟩ hnil
    have hmem : d ∈ docs.filter meaningful_check :=
      List.mem_filter.mpr ⟨hd, (meaningful_check_iff d).mpr hm⟩
    rw [hnil] at hmem
    cases hmem

theorem is_general_question_eq_false_iff (ql : Str) :
    is_general_question ql = false ↔ ∀ t ∈ general_topics, ¬ (containsStr ql t = true) := by
  unfold is_general_question
  rw [← Bool.not_eq_true, List.any_eq_true]
  push_neg
  rfl

theorem has_script_content_eq_false_iff (ql : Str) :
    has_script_content ql = false ↔ ∀ m ∈ injection_markers, ¬ (containsStr ql m = true) := by
  unfold has_script_content injection_markers
  simp [List.forall_mem_cons, Bool.or_eq_false_iff, Bool.not_eq_true]
  tauto

/- ========================== Claim theorems ============================= -/

theorem classify_source_eq_document_iff (q : Str) (docs : List Str) :
    (classify_source q docs).1 = "document".toList ↔ GroundedSpec q docs := by
  unfold classify_source GroundedSpec
  split
  case isTrue h =>
    rw [is_from_documents, has_meaningful_docs, meaningful_docs, Bool.and_eq_true, Bool.and_eq_true] at h
    obtain ⟨⟨hm, hg⟩, hs⟩ := h
    rw [Bool.not_eq_true'] at hg hs
    exact iff_of_true rfl
      ⟨(exists_meaningful_iff docs).mp (of_decide_eq_true hm),
       (is_general_question_eq_false_iff (toLowerStr q)).mp hg,
       (has_script_content_eq_false_iff (toLowerStr q)).mp hs⟩
  case isFalse h =>
    refine iff_of_false (by decide) ?_
    rintro ⟨ha, hb, hc⟩
    apply h
    rw [is_from_documents, has_meaningful_docs, meaningful_docs, Bool.and_eq_true, Bool.and_eq_true]
    refine ⟨⟨decide_eq_true ((exists_meaningful_iff docs).mpr ha), ?_⟩, ?_⟩
    · rw [Bool.not_eq_true']
      exact (is_general_question_eq_false_iff (toLowerStr q)).mpr hb
    · rw [Bool.not_eq_true']
      exact (has_script_content_eq_false_iff (toLowerStr q)).mpr hc

theorem classify_source_fst_cases (q : Str) (docs : List Str) :
    (classify_source q docs).1 = "document".toList ∨
      (classify_source q docs).1 = "general_knowledge".toList := by
  unfold classify_source
  split
  · exact Or.inl rfl
  · exact Or.inr rfl

/-- C1: the relevance filter labels the answer as grounded in the
documents (answer_source equals document) exactly when some retrieved
item is meaningful, the lower-cased question contains no
general-knowledge trigger phrase, and the question contains no
script-injection marker; in every other case the label is
general_knowledge. -/
theorem C1_relevance_filter_classification (q : Str) (docs : List Str) :
    ((classify_source q docs).1 = "document".toList ↔ GroundedSpec q docs)
    ∧ ((classify_source q docs).1 = "document".toList ∨
        (classify_source q docs).1 = "general_knowledge".toList) :=
  ⟨classify_source_eq_document_iff q docs, classify_source_fst_cases q docs⟩

/-- C4: concept extraction uses at most the first five chunks, maps each
to the first whitespace-delimited token of its trimmed content, skips
chunks that are empty or whitespace-only (equivalently, chunks whose
token list is empty), preserves order, and returns [Apple, Banana,
Cherry] on the five example chunks. -/
theorem C4_extract_concepts_spec :
    (∀ chunks, extract_concepts chunks =
        (chunks.take 5).filterMap (fun c => (pySplit (pyStrip c)).head?))
    ∧ (∀ c : Str, pySplit c = [] ↔ c.all isWs = true)
    ∧ extract_concepts exampleChunks = ["Apple".toList, "Banana".toList, "Cherry".toList]
    ∧ (∀ chunks, (extract_concepts chunks).length ≤ 5) := by
  refine ⟨fun chunks => ?_, pySplit_eq_nil_iff, by decide, fun chunks => ?_⟩
  · rw [extract_concepts, first_word_list_eq_filterMap]
    simp only [pySplit_pyStrip]
  · have h1 : ((chunks.take 5).filter (fun c => !(pySplit c).isEmpty)).length ≤
        (chunks.take 5).length := List.length_filter_le _ _
    have h2 : (chunks.take 5).length ≤ 5 := by
      rw [List.length_take]; exact min_le_left _ _
    simpa [extract_concepts, first_word_list] using le_trans h1 h2

/-- C5: the graph upsert is idempotent and, starting from the empty
store, creates exactly one Concept node per distinct name and one
RELATED_TO edge per consecutive pair; upserting [A, B, C] twice yields
exactly the three nodes and the two edges A to B and B to C. -/
theorem C5_add_concepts_idempotent :
    (∀ g cs, add_concepts (add_concepts g cs) cs = add_concepts g cs)
    ∧ add_concepts (add_concepts Graph.empty ["A".toList, "B".toList, "C".toList])
        ["A".toList, "B".toList, "C".toList] =
      ⟨[("Concept".toList, "A".toList), ("Concept".toList, "B".toList), ("Concept".toList, "C".toList)],
       [("A".toList, "B".toList, "RELATED_TO".toList), ("B".toList, "C".toList, "RELATED_TO".toList)]⟩
    ∧ ∀ cs,
        (add_concepts Graph.empty cs).nodes.Nodup
        ∧ (∀ x ∈ (add_concepts Graph.empty cs).nodes, x.1 = "Concept".toList)
        ∧ (∀ nm, ("Concept".toList, nm) ∈ (add_concepts Graph.empty cs).nodes ↔ nm ∈ cs)
        ∧ (add_concepts Graph.empty cs).edges.Nodup
        ∧ (∀ a b r, (a, b, r) ∈ (add_concepts Graph.empty cs).edges ↔
            (a, b) ∈ cs.zip cs.tail ∧ r = "RELATED_TO".toList) := by
  refine ⟨add_concepts_idem, by decide, fun cs => ⟨?_, ?_, ?_, ?_, ?_⟩⟩
  · rw [add_concepts_eq]
    have h := nodup_nodes_addNodes Graph.empty cs (by simp [Graph.empty])
    simpa [nodes_addEdges] using h
  · intro x hx
    rw [add_concepts_eq, nodes_addEdges, mem_nodes_addNodes_iff] at hx
    rcases hx with hx | hx
    · simp [Graph.empty] at hx
    · exact hx.1
  · intro nm
    rw [add_concepts_eq, nodes_addEdges, mem_nodes_addNodes_iff]
    simp [Graph.empty]
  · rw [add_concepts_eq]
    exact nodup_edges_addEdges _ _ (by rw [edges_addNodes]; simp [Graph.empty])
  · intro a b r
    constructor
    · intro h
      rw [add_concepts_eq] at h
      rcases mem_edges_addEdges_imp h with h1 | h1
      · rw [edges_addNodes] at h1
        simp [Graph.empty] at h1
      · obtain ⟨p, hp, he⟩ := h1
        rw [Prod.mk.injEq, Prod.mk.injEq] at he
        obtain ⟨ha, hb, hr⟩ := he
        subst ha; subst hb; subst hr
        exact ⟨by rwa [Prod.mk.eta], rfl⟩
    · rintro ⟨hab, hr⟩
      subst hr
      rw [add_concepts_eq]
      have hm := List.of_mem_zip hab
      exact edge_mem_addEdges hab
        (hasNodeNamed_of_mem (concept_mem_addNodes _ hm.1))
        (hasNodeNamed_of_mem (concept_mem_addNodes _ (List.mem_of_mem_tail hm.2)))

/-- Witness for C5: the theorem applied at the list [A, B] and the name A
establishes a concrete node membership. -/
theorem C5_add_concepts_idempotent_witness :
    ("Concept".toList, "A".toList) ∈ (add_concepts Graph.empty ["A".toList, "B".toList]).nodes :=
  ((C5_add_concepts_idempotent.2.2 ["A".toList, "B".toList]).2.2.1 ("A".toList)).mpr (by decide)

/-- C9: the backward-compatibility entry points delegate exactly: for all
inputs upload_pdf agrees with upload_document and load_and_split_pdf
agrees with load_and_split_document. -/
theorem C9_backward_compat (st : AppState) (g : Graph) (f : Str) (o : UploadOracle)
    (L : Loaders) (p : Str) :
    upload_pdf st g f o = upload_document st g f o
    ∧ load_and_split_pdf L p = load_and_split_document L p :=
  ⟨rfl, rfl⟩

/-- C10: the relevant_concepts computation of the question endpoint is
total: it equals the filterMap of the optional first token, so retrieved
documents with empty or whitespace-only content are skipped rather than
indexed, and the result never has more entries than there are retrieved
documents. -/
theorem C10_relevant_concepts_total (docs : List Str) :
    first_word_list docs = docs.filterMap (fun d => (pySplit d).head?)
    ∧ (first_word_list docs).length ≤ docs.length := by
  refine ⟨first_word_list_eq_filterMap docs, ?_⟩
  have h1 : (docs.filter (fun c => !(pySplit c).isEmpty)).length ≤ docs.length :=
    List.length_filter_le _ _
  simpa [first_word_list] using h1

/-- C6: an upload whose extension is outside the supported set is
rejected with the 400 payload before any work happens: the chunker never
runs, no temporary file is written, neither the application state nor the
graph changes, and the status report is identical before and after. -/
theorem C6_unsupported_extension_rejected (st : AppState) (g : Graph) (filename : Str)
    (o : UploadOracle) (h : toLowerStr (splitext filename).2 ∉ supported_extensions) :
    (upload_document st g filename o).result = .unsupportedType (toLowerStr (splitext filename).2)
    ∧ (upload_document st g filename o).state = st
    ∧ (upload_document st g filename o).graph = g
    ∧ (upload_document st g filename o).trace.chunkerInvoked = false
    ∧ (upload_document st g filename o).trace.tmpCreated = false
    ∧ get_status (upload_document st g filename o).state = get_status st := by
  have hrun : upload_document st g filename o =
      ⟨.unsupportedType (toLowerStr (splitext filename).2), st, g,
       ⟨false, false, false, false, false⟩⟩ := by
    simp [upload_document, h]
  rw [hrun]
  exact ⟨rfl, rfl, rfl, rfl, rfl, rfl⟩

/-- Witness for C6 at a concrete .exe upload. -/
theorem C6_unsupported_extension_rejected_witness :
    (upload_document blankState Graph.empty exeName oracleAllOk).result =
        .unsupportedType (".exe".toList)
    ∧ get_status (upload_document blankState Graph.empty exeName oracleAllOk).state =
        get_status blankState := by
  have h := C6_unsupported_extension_rejected blankState Graph.empty exeName oracleAllOk (by decide)
  exact ⟨by rw [h.1]; rfl, h.2.2.2.2.2⟩

/-- C2 counterexample: a run in which every step succeeds except the
graph write.  The upload returns the 500 error payload rather than the
success result and the vector index is not rebuilt, so the ingestion did
not continue past the graph failure. -/
theorem C2_graph_failure_counterexample :
    (upload_document blankState Graph.empty txtName oracleGraphFail).result = .processingError
    ∧ (upload_document blankState Graph.empty txtName oracleGraphFail).result ≠
        .success txtName newChunks.length
    ∧ (upload_document blankState Graph.empty txtName oracleGraphFail).state.vectordb = none
    ∧ (upload_document blankState Graph.empty txtName oracleGraphFail).trace.indexRebuilt = false := by
  decide

/-- C2 amended: a Concept Graph Builder failure is fatal to the
ingestion: the handler returns the 500 error payload, the vector index is
not rebuilt and the index, retriever and chain handles keep their prior
values, the graph is untouched, the temporary file is deleted, and the
process-wide chunk list has already been overwritten with the new
chunks. -/
theorem C2_amended_graph_failure_fatal (st : AppState) (g : Graph) (f : Str) (o : UploadOracle)
    (chunks : List Str) (hext : toLowerStr (splitext f).2 ∈ supported_extensions)
    (hread : o.readOk = true) (hchunk : o.chunkResult = .ok chunks)
    (hgraph : o.graphOk = false) :
    (upload_document st g f o).result = .processingError
    ∧ (upload_document st g f o).state.vectordb = st.vectordb
    ∧ (upload_document st g f o).state.retriever = st.retriever
    ∧ (upload_document st g f o).state.qa_chain = st.qa_chain
    ∧ (upload_document st g f o).state.pdf_chunks_data = chunks
    ∧ (upload_document st g f o).trace.indexRebuilt = false
    ∧ (upload_document st g f o).trace.tmpDeleted = true
    ∧ (upload_document st g f o).graph = g := by
  have hrun : upload_document st g f o =
      ⟨.processingError, { st with pdf_chunks_data := chunks }, g,
       ⟨true, true, true, true, false⟩⟩ := by
    simp [upload_document, hext, hread, hchunk, hgraph]
  rw [hrun]
  exact ⟨rfl, rfl, rfl, rfl, rfl, rfl, rfl, rfl⟩

/-- Witness for the amended C2 at a concrete run. -/
theorem C2_amended_graph_failure_fatal_witness :
    (upload_document blankState Graph.empty txtName oracleGraphFail).result = .processingError
    ∧ (upload_document blankState Graph.empty txtName oracleGraphFail).state.pdf_chunks_data =
        newChunks := by
  have h := C2_amended_graph_failure_fatal blankState Graph.empty txtName oracleGraphFail
    newChunks (by decide) rfl rfl rfl
  exact ⟨h.1, h.2.2.2.2.1⟩

/-- C3 counterexample: with a prior chunk list of length one, an upload
of a two-chunk document whose index rebuild fails aborts with the 500
error payload, yet the process-wide chunk list now holds the two new
chunks: the reported chunk count changed from 1 to 2 instead of staying
at its pre-ingestion value. -/
theorem C3_index_failure_counterexample :
    (upload_document priorState Graph.empty txtName oracleIndexFail).result = .processingError
    ∧ (upload_document priorState Graph.empty txtName oracleIndexFail).state.pdf_chunks_data ≠
        priorState.pdf_chunks_data
    ∧ (get_status (upload_document priorState Graph.empty txtName oracleIndexFail).state).chunks_count = 2
    ∧ (get_status priorState).chunks_count = 1 := by
  decide

/-- C3 amended: an index-rebuild failure aborts the ingestion with the
500 error payload and leaves the index, retriever and chain handles at
their prior values, but the process-wide chunk list has already been
overwritten with the new chunk contents (the documented consistency
gap), so the reported chunk count is the new one, not the prior one. -/
theorem C3_amended_index_failure (st : AppState) (g : Graph) (f : Str) (o : UploadOracle)
    (chunks : List Str) (hext : toLowerStr (splitext f).2 ∈ supported_extensions)
    (hread : o.readOk = true) (hchunk : o.chunkResult = .ok chunks)
    (hgraph : o.graphOk = true) (hindex : o.indexOk = false) :
    (upload_document st g f o).result = .processingError
    ∧ (upload_document st g f o).state.vectordb = st.vectordb
    ∧ (upload_document st g f o).state.retriever = st.retriever
    ∧ (upload_document st g f o).state.qa_chain = st.qa_chain
    ∧ (upload_document st g f o).state.pdf_chunks_data = chunks
    ∧ (get_status (upload_document st g f o).state).chunks_count = chunks.length
    ∧ (upload_document st g f o).trace.tmpDeleted = true := by
  have hrun : upload_document st g f o =
      ⟨.processingError, { st with pdf_chunks_data := chunks },
       add_concepts g (extract_concepts chunks), ⟨true, true, true, true, false⟩⟩ := by
    simp [upload_document, hext, hread, hchunk, hgraph, hindex]
  rw [hrun]
  exact ⟨rfl, rfl, rfl, rfl, rfl, rfl, rfl⟩

/-- Witness for the amended C3 at a concrete run. -/
theorem C3_amended_index_failure_witness :
    (upload_document priorState Graph.empty txtName oracleIndexFail).result = .processingError
    ∧ (upload_document priorState Graph.empty txtName oracleIndexFail).state.pdf_chunks_data =
        newChunks := by
  have h := C3_amended_index_failure priorState Graph.empty txtName oracleIndexFail
    newChunks (by decide) rfl rfl rfl rfl
  exact ⟨h.1, h.2.2.2.2.1⟩

/-- C7 counterexample: when reading the upload raises before the try
block, the temporary file has been created but is never deleted, so
cleanup does not happen on every exit path. -/
theorem C7_read_failure_counterexample :
    (upload_document blankState Graph.empty txtName oracleReadFail).trace.tmpCreated = true
    ∧ (upload_document blankState Graph.empty txtName oracleReadFail).trace.tmpDeleted = false := by
  decide

/-- C7 amended: once the extension check passes, the temporary file is
created, and it is deleted on every exit path of the try block (chunking,
graph write, index rebuild, or save failure, and success alike); but when
reading the upload or writing the temporary file itself raises, the file
is created and never deleted. -/
theorem C7_amended_tmpfile_cleanup (st : AppState) (g : Graph) (f : Str) (o : UploadOracle)
    (hext : toLowerStr (splitext f).2 ∈ supported_extensions) :
    (upload_document st g f o).trace.tmpCreated = true
    ∧ (o.readOk = true → (upload_document st g f o).trace.tmpDeleted = true)
    ∧ (o.readOk = false → (upload_document st g f o).trace.tmpDeleted = false) := by
  cases hr : o.readOk
  · simp [upload_document, hext, hr]
  · rcases hc : o.chunkResult with u | chunks
    · simp [upload_document, hext, hr, hc]
    · cases hg : o.graphOk <;> cases hi : o.indexOk <;> cases hs : o.saveOk <;>
        simp [upload_document, hext, hr, hc, hg, hi, hs]

/-- Witness for the amended C7 at a concrete successful run. -/
theorem C7_amended_tmpfile_cleanup_witness :
    (upload_document blankState Graph.empty txtName oracleAllOk).trace.tmpCreated = true
    ∧ (upload_document blankState Graph.empty txtName oracleAllOk).trace.tmpDeleted = true := by
  have h := C7_amended_tmpfile_cleanup blankState Graph.empty txtName oracleAllOk (by decide)
  exact ⟨h.1, h.2.1 rfl⟩

/-- The chain handle is only ever set together with the retriever handle:
the ingestion endpoint preserves the well-formedness invariant. -/
theorem upload_document_preserves_inv (st : AppState) (g : Graph) (f : Str) (o : UploadOracle)
    (h : StateInv st) : StateInv (upload_document st g f o).state := by
  unfold StateInv at h ⊢
  by_cases hext : toLowerStr (splitext f).2 ∉ supported_extensions
  · simpa [upload_document, hext] using h
  · cases hr : o.readOk
    · simpa [upload_document, hext, hr] using h
    · rcases hc : o.chunkResult with u | chunks
      · simpa [upload_document, hext, hr, hc] using h
      · cases hg : o.graphOk
        · simpa [upload_document, hext, hr, hc, hg] using h
        · cases hi : o.indexOk
          · simpa [upload_document, hext, hr, hc, hg, hi] using h
          · cases hs : o.saveOk <;> simp [upload_document, hext, hr, hc, hg, hi, hs]

/-- C8: the question endpoint returns the 404 not-ready payload exactly
when no answer chain handle is set (nothing was ingested in this process
lifetime and no persisted index was loadable at start-up); in every
well-formed state that has a chain handle it returns an answer payload
instead. -/
theorem C8_ask_question_readiness (st : AppState) (q : Str) (docs : List Str) (ans : Str) :
    (ask_question st q docs ans = .notReady ↔ st.qa_chain = none)
    ∧ (StateInv st → st.qa_chain.isSome = true →
        (ask_question st q docs ans).isAnswerPayload = true) := by
  constructor
  · rcases hq : st.qa_chain with _ | c
    · simp [ask_question, hq]
    · rcases hr : st.retriever with _ | r <;> simp [ask_question, hq, hr]
  · intro hinv hsome
    have hr := hinv hsome
    rcases hq : st.qa_chain with _ | c
    · rw [hq] at hsome; cases hsome
    · rcases hrr : st.retriever with _ | r
      · rw [hrr] at hr; cases hr
      · simp [ask_question, hq, hrr, AskResult.isAnswerPayload]

/-- Witness for C8: a ready state answers with a payload. -/
theorem C8_ask_question_readiness_witness :
    (ask_question readyState ("hi".toList) [] ("ok".toList)).isAnswerPayload = true :=
  (C8_ask_question_readiness readyState ("hi".toList) [] ("ok".toList)).2 (fun _ => rfl) rfl
